import Mathlib

/-!
Shallow embedding of the `useFetch` React hook from `src/index.ts` of
react-simple-fetch-api.

The hook keeps an observable state triple `{data, loading, error}`
(`UseFetchState` in the source), a private `abortControllerRef` holding the
AbortController of the most recently started request, and exposes the
operations `execute(overrideOptions?)`, `reset()`, and a `useEffect` that
performs the optional auto-fetch at mount and registers a cleanup that aborts
the current controller at unmount.

We model each AbortController by a numeric token (its identity); `abort()`
calls are recorded in an `abortLog`.  The asynchronous body of `execute` is
split at its single suspension point (`await apiFetch(options)`) into two
atomic steps, exactly as the single-threaded JavaScript event loop executes
them:

* `executeStart` — the synchronous prefix of `execute`: abort the previous
  controller if present, install a fresh controller, and run
  `setState(prev => ({ ...prev, loading: true, error: null }))` (line 127 of
  the source: note `...prev` spreads the previous state, so `data` is kept);
* `executeResolve tok r` — the continuation after invocation `tok`'s
  `apiFetch` settles with result `r`: the source runs
  `if (result.ok) setState({data: result.data, loading: false, error: null})
   else setState({data: null, loading: false, error: result.error})`
  unconditionally (lines 137-141 — there is no token / staleness check),
  and `return result`.

`resetState` is `reset` (line 152) and `unmountCleanup` is the effect cleanup
(lines 165-169).  A trace is a list of such events interleaved in any order;
`run` folds them from the initial state, modelling every schedule the event
loop can produce.
-/

namespace ReactSimpleFetch

/-- Structured error carried by a failed `ApiResult` (the `ApiError` of
`simple-fetch-api`): a human-readable message plus an optional status code. -/
structure ErrorInfo where
  message : String
  status : Option Nat
deriving DecidableEq

/-- Result type of `apiFetch` from `simple-fetch-api`: `{ok: true, data}` or
`{ok: false, error}`. -/
inductive ApiResult (T : Type) where
  | ok (data : T)
  | err (error : ErrorInfo)
deriving DecidableEq

/-- The `ApiFetchOptions` record passed to `apiFetch`: endpoint, method,
headers, optional body, and an optional cancellation signal identified by the
numeric token of the AbortController that owns it. -/
structure ApiFetchOptions where
  url : String
  method : String
  headers : List (String × String)
  body : Option String
  signal : Option Nat
deriving DecidableEq

/-- A `Partial<ApiFetchOptions>` value (`overrideOptions` in the source): each
field is present (`some`) or absent (`none`); absent fields do not take part in
the JavaScript object spread. -/
structure OverrideOptions where
  url : Option String
  method : Option String
  headers : Option (List (String × String))
  body : Option (Option String)
  signal : Option (Option Nat)
deriving DecidableEq

/-- The observable state triple of the hook (`UseFetchState<T>` in the
source): `data` and `error` use `Option` for the source's `T | null` and
`ApiError | null`. -/
structure UseFetchState (T : Type) where
  data : Option T
  loading : Bool
  error : Option ErrorInfo
deriving DecidableEq

/-- The idle triple `{data: null, loading: false, error: null}` used for the
initial state of `useState` and by `reset`. -/
def idleState (T : Type) : UseFetchState T :=
  { data := none, loading := false, error := none }

/-- Complete state of one hook instance: the observable triple, the private
`abortControllerRef` (the token of the currently installed controller, `none`
before the first `execute`; the source never resets it to `null`), the source
of fresh controller tokens, the tokens of invocations whose `apiFetch` has not
yet settled, and three histories: every `abort()` issued, every `execute` call
with its override argument, and every settled invocation's returned result. -/
structure HookState (T : Type) where
  obs : UseFetchState T
  controllerRef : Option Nat
  nextToken : Nat
  pending : List Nat
  abortLog : List Nat
  calls : List (Option OverrideOptions)
  returns : List (Nat × ApiResult T)
deriving DecidableEq

/-- Hook state right after `useState` initialises the triple and
`useRef(null)` initialises the controller reference, with empty histories. -/
def initState (T : Type) : HookState T :=
  { obs := idleState T
    controllerRef := none
    nextToken := 0
    pending := []
    abortLog := []
    calls := []
    returns := [] }

/-- Synchronous prefix of `execute(overrideOptions?)` (source lines 119-135,
up to the `await`): abort the previous controller if one is installed, install
a fresh controller as current, and run
`setState(prev => ({ ...prev, loading: true, error: null }))` — the spread of
`prev` keeps the previous `data` field.  The new invocation becomes pending
and the call is recorded. -/
def executeStart {T : Type} (s : HookState T) (ov : Option OverrideOptions) :
    HookState T :=
  let aborts := match s.controllerRef with
    | some t => [t]
    | none => []
  let tok := s.nextToken
  { obs := { data := s.obs.data, loading := true, error := none }
    controllerRef := some tok
    nextToken := tok + 1
    pending := tok :: s.pending
    abortLog := s.abortLog ++ aborts
    calls := s.calls ++ [ov]
    returns := s.returns }

/-- The observable state written by the resolution branch of `execute`
(source lines 137-141): on `result.ok`,
`{data: result.data, loading: false, error: null}`; otherwise
`{data: null, loading: false, error: result.error}`. -/
def applyResult {T : Type} (r : ApiResult T) : UseFetchState T :=
  match r with
  | .ok d => { data := some d, loading := false, error := none }
  | .err e => { data := none, loading := false, error := some e }

/-- Continuation of invocation `tok` of `execute` after its `apiFetch`
settles with `r` (source lines 135-143): the `setState` runs unconditionally —
the source performs no check that `tok` is still the current controller — and
`result` is returned verbatim to this invocation's caller (recorded in
`returns`).  A token not in `pending` has already settled or never started, so
the event is a no-op. -/
def executeResolve {T : Type} (s : HookState T) (tok : Nat) (r : ApiResult T) :
    HookState T :=
  if tok ∈ s.pending then
    { s with obs := applyResult r
             pending := s.pending.erase tok
             returns := s.returns ++ [(tok, r)] }
  else s

/-- The `reset` callback (source lines 151-153):
`setState({data: null, loading: false, error: null})` and nothing else. -/
def resetState {T : Type} (s : HookState T) : HookState T :=
  { s with obs := idleState T }

/-- The effect cleanup run at unmount (source lines 165-169): if
`abortControllerRef.current` is non-null, call `abort()` on it; nothing else
happens and nothing can throw. -/
def unmountCleanup {T : Type} (s : HookState T) : HookState T :=
  match s.controllerRef with
  | some t => { s with abortLog := s.abortLog ++ [t] }
  | none => s

/-- One atomic step of the hook's event loop. -/
inductive Event (T : Type) where
  | start (ov : Option OverrideOptions)
  | resolve (tok : Nat) (r : ApiResult T)
  | reset
  | unmount
deriving DecidableEq

/-- Dispatch one event to the corresponding step of the model. -/
def step {T : Type} (s : HookState T) (e : Event T) : HookState T :=
  match e with
  | .start ov => executeStart s ov
  | .resolve tok r => executeResolve s tok r
  | .reset => resetState s
  | .unmount => unmountCleanup s

/-- Run a trace of events from the initial hook state.  Every interleaving of
`execute` starts, transport settlements, `reset` calls and the unmount cleanup
is some such trace. -/
def run {T : Type} (es : List (Event T)) : HookState T :=
  es.foldl step (initState T)

/-- The merged options object built by `execute` (source lines 129-133):
`{...initialOptions, ...overrideOptions, signal: abortControllerRef.current.signal}`.
JavaScript spread is a shallow per-key merge with later objects winning, and
the trailing `signal:` property overwrites any signal from either source;
`tok` is the token of the freshly created controller. -/
def mergeOptions (base : ApiFetchOptions) (ov : OverrideOptions) (tok : Nat) :
    ApiFetchOptions :=
  { url := ov.url.getD base.url
    method := ov.method.getD base.method
    headers := ov.headers.getD base.headers
    body := ov.body.getD base.body
    signal := some tok }

/-- Merge when `execute` is called with no argument: the spread of an absent
`overrideOptions` contributes nothing, so only the signal is overridden. -/
def mergeOptionsOpt (base : ApiFetchOptions) (ov : Option OverrideOptions)
    (tok : Nat) : ApiFetchOptions :=
  match ov with
  | some o => mergeOptions base o tok
  | none => { base with signal := some tok }

/-- One whole uninterrupted `execute(overrideOptions?)` invocation against a
transport function.  The transport models `apiFetch`: it returns
`some result` when the promise settles with an `ApiResult` (the transport
contract) and `none` when it rejects or hangs; in the latter case the
`async` body of `execute` — which has no `try`/`catch` — propagates the
rejection, modelled as `none`. -/
def executeOnce {T : Type} (s : HookState T) (base : ApiFetchOptions)
    (ov : Option OverrideOptions)
    (transport : ApiFetchOptions → Option (ApiResult T)) :
    Option (HookState T × ApiResult T) :=
  let tok := s.nextToken
  let s1 := executeStart s ov
  match transport (mergeOptionsOpt base ov tok) with
  | none => none
  | some r => some (executeResolve s1 tok r, r)

/-- The `execute` calls made by the mount effect (source lines 159-162):
`if (autoFetch) { execute(); }` — one call with no overrides when the flag is
true, none otherwise. -/
def mountEvents (T : Type) (autoFetch : Bool) : List (Event T) :=
  if autoFetch then [Event.start none] else []

/-- A concrete base configuration, used to instantiate theorems with
hypotheses at explicit inputs. -/
def sampleBase : ApiFetchOptions :=
  { url := "/users/1", method := "GET", headers := [], body := none,
    signal := none }

/-- A concrete per-call override: overrides `method` and tries to smuggle in
its own `signal`; leaves the other fields absent. -/
def sampleOverride : OverrideOptions :=
  { url := none, method := some "POST", headers := none, body := none,
    signal := some (some 99) }

/-- A concrete transport that always settles, with a failure-shaped result. -/
def sampleTransport : ApiFetchOptions → Option (ApiResult Nat) :=
  fun _ => some (ApiResult.err { message := "HTTP 500", status := some 500 })

/-- A concrete classified network error. -/
def sampleNetError : ErrorInfo :=
  { message := "network error", status := none }

/-- A concrete cancellation-induced error. -/
def sampleAbortError : ErrorInfo :=
  { message := "aborted", status := none }

/-- Mutual-exclusion invariant of the observable triple: `data` and `error`
are never both present. -/
theorem step_mutual_exclusion {T : Type} (s : HookState T) (e : Event T)
    (h : s.obs.data = none ∨ s.obs.error = none) :
    (step s e).obs.data = none ∨ (step s e).obs.error = none := by
  cases e with
  | start ov => exact Or.inr rfl
  | resolve tok r =>
      by_cases htok : tok ∈ s.pending
      · cases r with
        | ok d => exact Or.inr (by simp [step, executeResolve, htok, applyResult])
        | err e => exact Or.inl (by simp [step, executeResolve, htok, applyResult])
      · simpa [step, executeResolve, htok] using h
  | reset => exact Or.inl rfl
  | unmount =>
      cases hc : s.controllerRef with
      | none => simpa [step, unmountCleanup, hc] using h
      | some t => simpa [step, unmountCleanup, hc] using h

/-- The mutual-exclusion invariant is preserved by whole traces. -/
theorem foldl_mutual_exclusion {T : Type} (es : List (Event T))
    (s : HookState T) (h : s.obs.data = none ∨ s.obs.error = none) :
    (es.foldl step s).obs.data = none ∨ (es.foldl step s).obs.error = none := by
  induction es generalizing s with
  | nil => simpa using h
  | cons e es ih => exact ih (step s e) (step_mutual_exclusion s e h)

/-- Whenever `loading` is true the `error` field is absent: preserved by
every step. -/
theorem step_loading_no_error {T : Type} (s : HookState T) (e : Event T)
    (h : s.obs.loading = true → s.obs.error = none) :
    (step s e).obs.loading = true → (step s e).obs.error = none := by
  cases e with
  | start ov => intro _; rfl
  | resolve tok r =>
      by_cases htok : tok ∈ s.pending
      · cases r with
        | ok d => intro _; simp [step, executeResolve, htok, applyResult]
        | err e => intro hl; simp [step, executeResolve, htok, applyResult] at hl
      · simpa [step, executeResolve, htok] using h
  | reset => intro _; rfl
  | unmount =>
      cases hc : s.controllerRef with
      | none => simpa [step, unmountCleanup, hc] using h
      | some t => simpa [step, unmountCleanup, hc] using h

/-- The loading-implies-no-error invariant is preserved by whole traces. -/
theorem foldl_loading_no_error {T : Type} (es : List (Event T))
    (s : HookState T) (h : s.obs.loading = true → s.obs.error = none) :
    (es.foldl step s).obs.loading = true → (es.foldl step s).obs.error = none := by
  induction es generalizing s with
  | nil => simpa using h
  | cons e es ih => exact ih (step s e) (step_loading_no_error s e h)

/-- If some invocation is still pending then a controller is installed:
preserved by every step (`executeStart` installs one and nothing ever clears
the reference). -/
theorem step_pending_ref {T : Type} (s : HookState T) (e : Event T)
    (h : s.pending ≠ [] → s.controllerRef ≠ none) :
    (step s e).pending ≠ [] → (step s e).controllerRef ≠ none := by
  cases e with
  | start ov => intro _; simp [step, executeStart]
  | resolve tok r =>
      by_cases htok : tok ∈ s.pending
      · intro _
        have hne : s.pending ≠ [] := by
          intro he
          rw [he] at htok
          simp at htok
        simpa [step, executeResolve, htok] using h hne
      · simpa [step, executeResolve, htok] using h
  | reset => simpa [step, resetState] using h
  | unmount =>
      cases hc : s.controllerRef with
      | none => simpa [step, unmountCleanup, hc] using h
      | some t => intro _; simp [step, unmountCleanup, hc]

/-- The pending-implies-installed-controller invariant holds along whole
traces. -/
theorem foldl_pending_ref {T : Type} (es : List (Event T)) (s : HookState T)
    (h : s.pending ≠ [] → s.controllerRef ≠ none) :
    (es.foldl step s).pending ≠ [] → (es.foldl step s).controllerRef ≠ none := by
  induction es generalizing s with
  | nil => simpa using h
  | cons e es ih => exact ih (step s e) (step_pending_ref s e h)

/-- Appending one event to a trace steps the final state once. -/
theorem run_append_one {T : Type} (es : List (Event T)) (e : Event T) :
    run (es ++ [e]) = step (run es) e := by
  simp [run, List.foldl_append]

/-- Claim C1, counterexample: there is no supersession gate in the source —
its resolution `setState` (lines 137-141) is unconditional.  In the trace
"A starts (token 0), B starts (token 1, superseding A), B resolves
successfully with payload 7, then A resolves as a failure", the final
observable state is A's failure, not B's outcome: A's resolution did mutate
state even though A's token was no longer the installed one. -/
theorem supersession_gate_cex :
    (0 : Nat) ∈ (run ([Event.start none, Event.start none] :
        List (Event Nat))).pending ∧
    (run ([Event.start none, Event.start none,
        Event.resolve 1 (ApiResult.ok 7),
        Event.resolve 0 (ApiResult.err sampleNetError)] :
        List (Event Nat))).obs =
      { data := none, loading := false, error := some sampleNetError } ∧
    (run ([Event.start none, Event.start none,
        Event.resolve 1 (ApiResult.ok 7),
        Event.resolve 0 (ApiResult.err sampleNetError)] :
        List (Event Nat))).obs ≠
      applyResult (ApiResult.ok 7) := by
  refine ⟨by decide, by decide, by decide⟩

/-- Claim C1 (amended): resolutions write the observable state
unconditionally, so the final state reflects whichever transport resolution
arrives last — last write wins by arrival order, not by token issuance order:
after any trace, the resolution of any still-pending invocation overwrites
the observable triple with its own outcome. -/
theorem last_arrival_wins {T : Type} (es : List (Event T)) (tok : Nat)
    (r : ApiResult T) (h : tok ∈ (run es).pending) :
    (run (es ++ [Event.resolve tok r])).obs = applyResult r := by
  rw [run_append_one]
  simp [step, executeResolve, h]

/-- Witness for `last_arrival_wins` at a concrete trace and result. -/
theorem last_arrival_wins_witness :
    (0 : Nat) ∈ (run ([Event.start none] : List (Event Nat))).pending ∧
    (run (([Event.start none] : List (Event Nat)) ++
        [Event.resolve 0 (ApiResult.ok 3)])).obs = applyResult (ApiResult.ok 3) :=
  ⟨by decide, last_arrival_wins [Event.start none] 0 (ApiResult.ok 3) (by decide)⟩

/-- Claim C2, counterexample: the start-of-request `setState` (line 127)
spreads the previous state, so previously held data is NOT cleared.  After a
successful fetch of 5, a new `execute` start leaves the observable state at
`{data: 5, loading: true, error: absent}`, not `{data: absent, loading: true,
error: absent}` as the claim states. -/
theorem start_clears_data_cex :
    (run ([Event.start none, Event.resolve 0 (ApiResult.ok 5),
        Event.start none] : List (Event Nat))).obs =
      { data := some 5, loading := true, error := none } ∧
    (run ([Event.start none, Event.resolve 0 (ApiResult.ok 5),
        Event.start none] : List (Event Nat))).obs ≠
      { data := none, loading := true, error := none } := by
  refine ⟨by decide, by decide⟩

/-- Claim C2 (amended): for every call to `execute` and any prior reachable
state, the state written at request start is exactly `{data: previous data
unchanged, loading: true, error: absent}` — `error` is cleared and `loading`
set before the transport is invoked, but previously held data is preserved. -/
theorem start_preserves_data {T : Type} (es : List (Event T))
    (ov : Option OverrideOptions) :
    (run (es ++ [Event.start ov])).obs =
      { data := (run es).obs.data, loading := true, error := none } := by
  rw [run_append_one]
  rfl

/-- Claim C3: mutual-exclusion invariant — in every state reachable from the
initial idle triple via any interleaving of execute starts, transport
resolutions, resets and unmount cleanups, `data` and `error` are never both
present. -/
theorem data_error_mutual_exclusion {T : Type} (es : List (Event T)) :
    (run es).obs.data = none ∨ (run es).obs.error = none :=
  foldl_mutual_exclusion es (initState T) (Or.inl rfl)

/-- Claim C4, counterexample: the source never resets `abortControllerRef`
to null after a request settles, so the unmount cleanup calls `abort()` on
the stale controller even when no request is in flight.  After one `execute`
that already resolved, no invocation is pending and no abort has been issued,
yet the cleanup issues a cancellation signal to token 0. -/
theorem cleanup_idle_signal_cex :
    (run ([Event.start none, Event.resolve 0 (ApiResult.ok 1)] :
        List (Event Nat))).pending = [] ∧
    (run ([Event.start none, Event.resolve 0 (ApiResult.ok 1)] :
        List (Event Nat))).abortLog = [] ∧
    (unmountCleanup (run ([Event.start none, Event.resolve 0 (ApiResult.ok 1)] :
        List (Event Nat)))).abortLog = [0] := by
  refine ⟨by decide, by decide, by decide⟩

/-- Claim C4 (amended): the unmount cleanup never throws and issues exactly
one cancellation signal, addressed to the currently installed controller,
whenever one is installed — whether or not its request is still in flight —
and issues none only when no controller was ever installed; while a request
is in flight a controller is always installed, so the cleanup then issues
exactly one signal. -/
theorem cleanup_signals_installed_token {T : Type} (es : List (Event T)) :
    ((run es).controllerRef = none →
      (unmountCleanup (run es)).abortLog = (run es).abortLog) ∧
    (∀ t, (run es).controllerRef = some t →
      (unmountCleanup (run es)).abortLog = (run es).abortLog ++ [t]) ∧
    ((run es).pending ≠ [] → (run es).controllerRef ≠ none) := by
  refine ⟨?_, ?_, ?_⟩
  · intro h
    simp [unmountCleanup, h]
  · intro t h
    simp [unmountCleanup, h]
  · exact foldl_pending_ref es (initState T) (fun h => absurd rfl h)

/-- Witness for `cleanup_signals_installed_token`: with one request in flight
the cleanup signals its token exactly once; on the empty trace it signals
nothing. -/
theorem cleanup_signals_installed_token_witness :
    (unmountCleanup (run ([Event.start none] : List (Event Nat)))).abortLog =
      [0] ∧
    (unmountCleanup (run ([] : List (Event Nat)))).abortLog = [] := by
  refine ⟨?_, ?_⟩
  · exact ((cleanup_signals_installed_token
      ([Event.start none] : List (Event Nat))).2.1 0 (by decide)).trans (by decide)
  · exact ((cleanup_signals_installed_token
      ([] : List (Event Nat))).1 (by decide)).trans (by decide)

/-- Claim C5: `reset` unconditionally writes the idle triple, issues no
cancellation signal, leaves the installed controller and the pending set
unchanged, and is a no-op on a state whose observable triple is already
idle. -/
theorem reset_idle_frame {T : Type} (s : HookState T) :
    (resetState s).obs = idleState T ∧
    (resetState s).controllerRef = s.controllerRef ∧
    (resetState s).abortLog = s.abortLog ∧
    (resetState s).pending = s.pending ∧
    (s.obs = idleState T → resetState s = s) := by
  refine ⟨rfl, rfl, rfl, rfl, ?_⟩
  intro h
  cases s
  simp only [resetState] at *
  rw [← h]

/-- Witness for `reset_idle_frame` at the initial state, which is idle. -/
theorem reset_idle_frame_witness :
    resetState (initState Nat) = initState Nat :=
  (reset_idle_frame (initState Nat)).2.2.2.2 rfl

/-- Claim C6: return decoupling — when any pending invocation's transport
settles, that invocation's caller receives exactly its own raw result
(appended to the `returns` history), independent of what the resolution did
to the observable state. -/
theorem return_decoupling {T : Type} (es : List (Event T)) (tok : Nat)
    (r : ApiResult T) (h : tok ∈ (run es).pending) :
    (run (es ++ [Event.resolve tok r])).returns =
      (run es).returns ++ [(tok, r)] := by
  rw [run_append_one]
  simp [step, executeResolve, h]

/-- Witness for `return_decoupling` on a supersession trace: invocation A
(token 0) was superseded by B (token 1) and B already resolved, yet A's
caller still receives A's own failure result. -/
theorem return_decoupling_witness :
    (0 : Nat) ∈ (run ([Event.start none, Event.start none,
        Event.resolve 1 (ApiResult.ok 7)] : List (Event Nat))).pending ∧
    (run (([Event.start none, Event.start none,
        Event.resolve 1 (ApiResult.ok 7)] : List (Event Nat)) ++
        [Event.resolve 0 (ApiResult.err sampleAbortError)])).returns =
      [(1, ApiResult.ok 7), (0, ApiResult.err sampleAbortError)] := by
  refine ⟨by decide, ?_⟩
  exact (return_decoupling ([Event.start none, Event.start none,
    Event.resolve 1 (ApiResult.ok 7)] : List (Event Nat)) 0
    (ApiResult.err sampleAbortError) (by decide)).trans (by decide)

/-- Claim C7: auto-fetch — the mount effect performs exactly one `execute`
call, with no overrides, when the auto-run flag is true, and performs zero
`execute` calls when it is false. -/
theorem auto_fetch_calls :
    (run (mountEvents Nat true)).calls = [(none : Option OverrideOptions)] ∧
    (run (mountEvents Nat false)).calls = [] := by
  refine ⟨by decide, by decide⟩

/-- Claim C8: options merge — the configuration passed to the transport is
the base options shallow-merged with the overrides, overrides winning on
every colliding key, except that the signal field is always the fresh
per-invocation token's signal, regardless of any signal in the base or the
overrides. -/
theorem options_merge (base : ApiFetchOptions) (ov : OverrideOptions)
    (tok : Nat) :
    (mergeOptions base ov tok).signal = some tok ∧
    (ov.url = none → (mergeOptions base ov tok).url = base.url) ∧
    (∀ u, ov.url = some u → (mergeOptions base ov tok).url = u) ∧
    (ov.method = none → (mergeOptions base ov tok).method = base.method) ∧
    (∀ m, ov.method = some m → (mergeOptions base ov tok).method = m) ∧
    (ov.headers = none → (mergeOptions base ov tok).headers = base.headers) ∧
    (∀ hs, ov.headers = some hs → (mergeOptions base ov tok).headers = hs) ∧
    (ov.body = none → (mergeOptions base ov tok).body = base.body) ∧
    (∀ b, ov.body = some b → (mergeOptions base ov tok).body = b) := by
  refine ⟨rfl, ?_, ?_, ?_, ?_, ?_, ?_, ?_, ?_⟩ <;>
    first
      | (intro h; simp [mergeOptions, h])
      | (intro x h; simp [mergeOptions, h])

/-- Witness for `options_merge` at concrete base and override values: the
caller-supplied signal (99) is ignored in favour of the fresh token (5), the
absent url falls back to the base, and the overriding method wins. -/
theorem options_merge_witness :
    (mergeOptions sampleBase sampleOverride 5).signal = some 5 ∧
    (mergeOptions sampleBase sampleOverride 5).url = sampleBase.url ∧
    (mergeOptions sampleBase sampleOverride 5).method = "POST" :=
  ⟨(options_merge sampleBase sampleOverride 5).1,
   (options_merge sampleBase sampleOverride 5).2.1 rfl,
   (options_merge sampleBase sampleOverride 5).2.2.2.2.1 "POST" rfl⟩

/-- Claim C9: no-throw propagation — under the transport contract that
`apiFetch` always settles with a success-or-failure-shaped value, `execute`
always returns a value (never a rejection): the returned value is the
transport's own result, and a failure result is captured into the `error`
field of the observable state with `data` cleared. -/
theorem execute_no_throw {T : Type} (s : HookState T) (base : ApiFetchOptions)
    (ov : Option OverrideOptions)
    (transport : ApiFetchOptions → Option (ApiResult T))
    (hsettle : ∀ o, transport o ≠ none) :
    ∃ p, executeOnce s base ov transport = some p ∧
      transport (mergeOptionsOpt base ov s.nextToken) = some p.2 ∧
      (∀ d, p.2 = ApiResult.ok d →
        p.1.obs = { data := some d, loading := false, error := none }) ∧
      (∀ e, p.2 = ApiResult.err e →
        p.1.obs = { data := none, loading := false, error := some e }) := by
  cases htr : transport (mergeOptionsOpt base ov s.nextToken) with
  | none => exact absurd htr (hsettle _)
  | some r =>
      refine ⟨(executeResolve (executeStart s ov) s.nextToken r, r), ?_, rfl,
        ?_, ?_⟩
      · simp [executeOnce, htr]
      · intro d hd
        simp only at hd
        subst hd
        simp [executeResolve, executeStart, applyResult]
      · intro e he
        simp only at he
        subst he
        simp [executeResolve, executeStart, applyResult]

/-- Witness for `execute_no_throw`: a transport that always settles with a
failure makes `execute` return a value rather than reject. -/
theorem execute_no_throw_witness :
    executeOnce (initState Nat) sampleBase none sampleTransport ≠ none := by
  obtain ⟨p, hp, -, -, -⟩ := execute_no_throw (initState Nat) sampleBase none
    sampleTransport (fun o => by simp [sampleTransport])
  simp [hp]

/-- Claim C10: implicit invariant — in every reachable state, whenever
`loading` is true the `error` field is absent. -/
theorem loading_implies_no_error {T : Type} (es : List (Event T))
    (h : (run es).obs.loading = true) : (run es).obs.error = none :=
  foldl_loading_no_error es (initState T) (fun _ => rfl) h

/-- Witness for `loading_implies_no_error` on a trace that is actually
loading. -/
theorem loading_implies_no_error_witness :
    (run ([Event.start none] : List (Event Nat))).obs.loading = true ∧
    (run ([Event.start none] : List (Event Nat))).obs.error = none :=
  ⟨by decide, loading_implies_no_error [Event.start none] (by decide)⟩

end ReactSimpleFetch
